import Mathlib

/-!
Verification development for the process-debugging core of the bite
repository (a binary-inspection GUI whose debugging core exposes a
process lifecycle surface and a tracee control surface per platform).

The embedding covers:
  - the Linux error taxonomy and its textual rendering (linux/fmt.rs);
  - the stub macOS backend (macos.rs), whose every operation is a
    `todo!` panic and whose `Error` enum has no variants;
  - the GUI debugging entry point (src/gui/mod.rs, start_debugging);
  - Linux backend operations whose bodies are absent from the sources
    (only their error rendering and trait signatures are present),
    modelled from the specification and marked as such.

Rust `Result` is embedded as `Except`, machine integers as `Nat`/`Int`,
a diverging `todo!(msg)` call as an explicit `panic msg` outcome value,
and the OS is passed as an explicit oracle where the code calls into it.
-/

namespace Bite

/-- A single-quote character as a one-character string (code point 39). -/
def squote : String := String.singleton (Char.ofNat 39)

/-- A backslash character as a one-character string (code point 92). -/
def bslash : String := String.singleton (Char.ofNat 92)

/-- Modelled from the spec: the `MessageQueue` event channel type is not
among the available sources (only its use as a parameter in macos.rs).
Its internals are irrelevant to the claims treated here; it is embedded
as an opaque placeholder carried through constructor signatures. -/
structure MessageQueue where
deriving DecidableEq

/-- Outcome of calling a Rust function that may panic instead of
returning: `ret v` is a normal return with value `v`; `panic msg` embeds
a `todo!(msg)` (or other panic) that never returns normally. -/
inductive RustOutcome (α : Type) where
| ret (value : α)
| panic (msg : String)
deriving DecidableEq

/-- Whether a `RustOutcome` is a panic. -/
def RustOutcome.isPanic {α : Type} : RustOutcome α → Bool
| .ret _ => false
| .panic _ => true

/-- Whether a `RustOutcome` is a normal return. -/
def RustOutcome.isRet {α : Type} : RustOutcome α → Bool
| .ret _ => true
| .panic _ => false

namespace linux

/-- The native OS error wrapped by `Error::Kernel`. The spec requires the
design to carry any such value without losing its original description;
it is embedded by that description (the string its Display produces). -/
structure KernelError where
  descr : String
deriving DecidableEq

/-- The Linux backend error taxonomy. The variant list is taken from the
match arms of `impl fmt::Debug for Error` in src/debugger/src/linux/fmt.rs:
`InvalidPathName`, `IncompleteRead(req, res)`, `IncompleteWrite(req, res)`
and `Kernel(err)`. The numeric payloads (Rust `usize`) are embedded as
`Nat`. -/
inductive Error where
| InvalidPathName
| IncompleteRead (requested : Nat) (actual : Nat)
| IncompleteWrite (requested : Nat) (actual : Nat)
| Kernel (err : KernelError)
deriving DecidableEq

/-- The textual rendering of the error taxonomy, embedding
`impl fmt::Debug for Error` from src/debugger/src/linux/fmt.rs line by
line.  The `InvalidPathName` arm writes the Rust literal
"There appears to be a '\\0' in the path name.", whose rendered text
contains a quoted two-character escape (single quote, backslash, the
digit zero, single quote); it is assembled here from `squote` and
`bslash`.  The `Kernel` arm is `format_args!("{err}.")`: the native
error description followed by a period. -/
def Error.fmt : Error → String
| .InvalidPathName =>
    "There appears to be a " ++ squote ++ bslash ++ "0" ++ squote
      ++ " in the path name."
| .IncompleteRead req res =>
    "Tried to read " ++ toString req ++ " bytes, only read "
      ++ toString res ++ "."
| .IncompleteWrite req res =>
    "Tried to write " ++ toString req ++ " bytes, only wrote "
      ++ toString res ++ "."
| .Kernel err => err.descr ++ "."

/-- ExecutionState from the spec data model:
{NotStarted, Running, Paused, Exited(code), Killed, Detached}. -/
inductive ExecutionState where
| NotStarted
| Running
| Paused
| Exited (code : Nat)
| Killed
| Detached
deriving DecidableEq

/-- The Linux process identifier: an opaque handle constructed from the
OS-native numeric id (Rust `pid_t`, embedded as `Int`). Modelled from
the spec: the Linux backend sources are absent from src/. -/
structure Pid where
  raw : Int
deriving DecidableEq

/-- Construction of a `Pid` from the OS-native numeric id. -/
def Pid.fromRaw (raw : Int) : Pid := ⟨raw⟩

/-- Modelled from the spec: the Linux `ControlledProcess` (Debugger)
holds the identifier, the sending half of the event channel, and
backend-private bookkeeping (syscall-tracing flag, last known execution
state). The Linux backend sources are absent from src/. -/
structure Debugger where
  pid : Pid
  queue : MessageQueue
  tracingSyscalls : Bool
  state : ExecutionState
deriving DecidableEq

/-- The OS oracle for `spawn`: fork/exec plus the initial trace-attach,
returning the new numeric pid or a native error. -/
structure SpawnOS where
  create : List UInt8 → List String → Except KernelError Int

/-- Modelled from the spec: `spawn(queue, path, args)` for the Linux
backend, whose body is absent from src/ (the macOS impl in macos.rs
fixes the signature: queue, path, args, returning `Result<Self, Error>`).
The path is the OS-native byte string supplied to spawn.  Per the spec,
spawn fails with `InvalidPathName` when the path cannot be encoded as an
OS-native string (it contains an embedded terminator byte 0), and in
that case never attempts process creation; otherwise it asks the OS to
create the traced child, wrapping a native failure in `Kernel`.  The
second component of the result records whether process creation was
attempted, and the handle starts Paused with syscall tracing off. -/
def spawn (os : SpawnOS) (queue : MessageQueue) (path : List UInt8)
    (args : List String) : Except Error Debugger × Bool :=
  if (0 : UInt8) ∈ path then
    (Except.error Error.InvalidPathName, false)
  else
    match os.create path args with
    | Except.ok pid =>
        (Except.ok
          { pid := Pid.fromRaw pid
            queue := queue
            tracingSyscalls := false
            state := ExecutionState.Paused }, true)
    | Except.error e => (Except.error (Error.Kernel e), true)

/-- The OS oracle for `attach`: the trace-attach call on an existing
process, failing natively when the target is gone or refuses tracing. -/
structure AttachOS where
  seize : Pid → Except KernelError Unit

/-- Modelled from the spec: `attach(queue, pid)` for the Linux backend,
whose body is absent from src/.  It attaches tracing to the process
named by `pid`, wrapping any native failure in `Kernel`; on success the
handle holds that pid and starts Paused. -/
def attach (os : AttachOS) (queue : MessageQueue) (pid : Pid) :
    Except Error Debugger :=
  match os.seize pid with
  | Except.ok _ =>
      Except.ok
        { pid := pid
          queue := queue
          tracingSyscalls := false
          state := ExecutionState.Paused }
  | Except.error e => Except.error (Error.Kernel e)

/-- The target address space, external state not owned by the system:
which byte addresses are mapped, and the byte stored at each address. -/
structure TargetMemory where
  mapped : Nat → Bool
  byte : Nat → UInt8

/-- The number of bytes mapped contiguously from `addr`, capped at the
requested length: the transfer count of the native read/write primitive,
which stops at the first unmapped page boundary. -/
def contiguous (mapped : Nat → Bool) (addr : Nat) : Nat → Nat
| 0 => 0
| n + 1 => if mapped addr then contiguous mapped (addr + 1) n + 1 else 0

/-- Modelled from the spec: `read_process_memory(address, length)` for
the Linux backend, whose body is absent from src/ (only the rendering of
its error in linux/fmt.rs is present).  The native primitive transfers
the contiguously mapped prefix; transferring fewer bytes than requested
yields `IncompleteRead(requested, actual)`, and a full transfer returns
exactly `length` bytes read from the target. -/
def read_process_memory (mem : TargetMemory) (addr len : Nat) :
    Except Error (List UInt8) :=
  let actual := contiguous mem.mapped addr len
  if actual < len then
    Except.error (Error.IncompleteRead len actual)
  else
    Except.ok ((List.range len).map fun i => mem.byte (addr + i))

/-- Modelled from the spec: `write_process_memory(address, bytes)` for
the Linux backend, whose body is absent from src/.  Symmetric to the
read: a partial transfer yields `IncompleteWrite(requested, actual)`;
a full transfer returns the updated target memory. -/
def write_process_memory (mem : TargetMemory) (addr : Nat)
    (data : List UInt8) : Except Error TargetMemory :=
  let actual := contiguous mem.mapped addr data.length
  if actual < data.length then
    Except.error (Error.IncompleteWrite data.length actual)
  else
    Except.ok
      { mem with
        byte := fun a =>
          if addr ≤ a ∧ a < addr + data.length then data.getD (a - addr) 0
          else mem.byte a }

/-- A stop notification delivered by the OS for the traced process:
syscall entry/exit boundaries, a signal stop, natural exit with a code,
or termination by kill. -/
inductive StopReason where
| SyscallEntry
| SyscallExit
| SignalStop (sig : Nat)
| Exited (code : Nat)
| Killed
deriving DecidableEq

/-- TraceEvent from the spec data model: a decoded notification pushed
onto the event channel — syscall entered/exited, signal delivered,
process exited (with code) or killed. -/
inductive TraceEvent where
| SyscallEntered
| SyscallExited
| SignalDelivered (sig : Nat)
| ProcessExited (code : Nat)
| ProcessKilled
deriving DecidableEq

/-- Whether a stop notification is terminal (the process is gone). -/
def StopReason.isTerminal : StopReason → Bool
| .Exited _ => true
| .Killed => true
| _ => false

/-- Whether a trace event is the final exit-class event `run` emits
before returning. -/
def TraceEvent.isFinal : TraceEvent → Bool
| .ProcessExited _ => true
| .ProcessKilled => true
| _ => false

/-- Modelled from the spec: the decoding of one stop notification into
the trace events `run` emits for it.  Syscall boundary stops are decoded
only when syscall tracing is enabled; a signal stop always yields its
event; the terminal stops yield the final exit-class event. -/
def decodeStop (tracing : Bool) : StopReason → List TraceEvent
| .SyscallEntry => if tracing then [TraceEvent.SyscallEntered] else []
| .SyscallExit => if tracing then [TraceEvent.SyscallExited] else []
| .SignalStop sig => [TraceEvent.SignalDelivered sig]
| .Exited code => [TraceEvent.ProcessExited code]
| .Killed => [TraceEvent.ProcessKilled]

/-- Modelled from the spec: the blocking loop of `run(self)` for the
Linux backend, whose body is absent from src/.  The loop repeatedly
waits for the next stop notification, decodes it, emits the decoded
events onto the queue and resumes — until a terminal stop (exit or
kill), at which point the final event is emitted and the call returns.
The external OS behaviour is the (finite) stream of stop notifications;
`none` means the stream was exhausted without a terminal stop, i.e. the
call is still blocked and has not returned (there is no cooperative
cancellation).  The result `some evs` is the ordered list of events
emitted before returning. -/
def runLoop (tracing : Bool) : List StopReason → Option (List TraceEvent)
| [] => none
| s :: rest =>
    if s.isTerminal then some (decodeStop tracing s)
    else Option.map (fun evs => decodeStop tracing s ++ evs)
      (runLoop tracing rest)

end linux

namespace macos

/-- The macOS process identifier, from src/debugger/src/macos.rs:
`pub struct Pid;` — a fieldless unit struct. -/
structure Pid where
deriving DecidableEq

/-- The macOS backend error type, from src/debugger/src/macos.rs:
`pub enum Error {}` — an enum with no variants, hence uninhabited. -/
inductive Error : Type
deriving DecidableEq

/-- The macOS `Debugger`, from src/debugger/src/macos.rs: it holds the
queue field; the `_not_send: PhantomData<*mut ()>` marker carries no
runtime data and is omitted from the embedding. -/
structure Debugger where
  queue : MessageQueue
deriving DecidableEq

/-- macos.rs `Process::spawn`: the body is `todo!("spawn")`, an
unconditional panic. -/
def spawn (_queue : MessageQueue) (_path : String) (_args : List String) :
    RustOutcome (Except Error Debugger) :=
  RustOutcome.panic "spawn"

/-- macos.rs `Process::attach`: the body is `todo!("attach")`. -/
def attach (_queue : MessageQueue) (_pid : Pid) :
    RustOutcome (Except Error Debugger) :=
  RustOutcome.panic "attach"

/-- macos.rs `Process::run`: the body is `todo!("run")`. -/
def run (_self : Debugger) : RustOutcome (Except Error Unit) :=
  RustOutcome.panic "run"

/-- macos.rs `Tracee::detach`: the body is `todo!("detach")`. -/
def detach (_self : Debugger) : RustOutcome (Debugger × Unit) :=
  RustOutcome.panic "detach"

/-- macos.rs `Tracee::kill`: the body is `todo!("kill")`. -/
def kill (_self : Debugger) : RustOutcome (Debugger × Unit) :=
  RustOutcome.panic "kill"

/-- macos.rs `Tracee::pause`: the body is `todo!("pause")`. -/
def pause (_self : Debugger) : RustOutcome Unit :=
  RustOutcome.panic "pause"

/-- macos.rs `Tracee::kontinue`: the body is `todo!("kontinue")`. -/
def kontinue (_self : Debugger) : RustOutcome (Debugger × Unit) :=
  RustOutcome.panic "kontinue"

/-- macos.rs `Tracee::read_process_memory`: the body is
`todo!("read_process_memory")`. -/
def read_process_memory (_self : Debugger) (_addr _len : Nat) :
    RustOutcome (Except Error (List UInt8)) :=
  RustOutcome.panic "read_process_memory"

/-- macos.rs `Tracee::write_process_memory`: the body is
`todo!("write_process_memory")`. -/
def write_process_memory (_self : Debugger) (_addr : Nat)
    (_data : List UInt8) : RustOutcome (Debugger × Except Error Unit) :=
  RustOutcome.panic "write_process_memory"

end macos

namespace gui

/-- One call made by the GUI debugging entry point.  `spawnCall` mirrors
`Debugger::spawn(path, args)` as written at src/src/gui/mod.rs:147 — the
call passes the path and argument list and nothing else.
`obtainQueueCall` stands for obtaining an event queue, an action the
spec control flow lists for callers. -/
inductive GuiCall where
| obtainQueueCall
| spawnCall (path : String) (args : List String)
| traceSyscallsCall (enabled : Bool)
| runToEndCall
deriving DecidableEq

/-- The observable behaviour of `RenderContext::start_debugging`:
whether a fresh dedicated thread is spawned for the session, and the
ordered calls issued on it. -/
structure DebugThread where
  freshThread : Bool
  calls : List GuiCall
deriving DecidableEq

/-- Embedding of `RenderContext::start_debugging` from
src/src/gui/mod.rs lines 138-152: it spawns a new thread whose closure
runs `Debugger::spawn(path, args).unwrap()`, then
`session.trace_syscalls(true)`, then `session.run_to_end().unwrap()`,
in that order. -/
def start_debugging (path : String) (args : List String) : DebugThread :=
  { freshThread := true
    calls :=
      [GuiCall.spawnCall path args,
       GuiCall.traceSyscallsCall true,
       GuiCall.runToEndCall] }

end gui

end Bite

namespace Bite

/-- Helper: the contiguous transfer count never exceeds the request. -/
theorem contiguous_le (mapped : Nat → Bool) (addr n : Nat) :
    linux.contiguous mapped addr n ≤ n := by
  induction n generalizing addr with
  | zero => exact Nat.le_refl 0
  | succ k ih =>
    unfold linux.contiguous
    by_cases h : mapped addr
    · simp only [h, if_true]
      exact Nat.succ_le_succ (ih (addr + 1))
    · simp only [h, if_false]
      exact Nat.zero_le _

/-- Helper: appending a fixed suffix to a string is injective. -/
theorem string_append_cancel_right (s t u : String) (h : s ++ u = t ++ u) :
    s = t := by
  have hd : s.data ++ u.data = t.data ++ u.data := by
    rw [← String.data_append, ← String.data_append, h]
  exact String.ext (List.append_cancel_right hd)

end Bite

namespace Bite

/-- C10: for every input, every operation of the macOS backend (spawn,
attach, run, detach, kill, pause, kontinue, read_process_memory,
write_process_memory) is an unconditional `todo!` panic and never
returns normally; and the macOS `Error` enum is uninhabited, so no
`Err` value can ever be produced by this backend. -/
theorem macos_backend_all_ops_diverge :
    (∀ q p a, macos.spawn q p a = RustOutcome.panic "spawn") ∧
    (∀ q pid, macos.attach q pid = RustOutcome.panic "attach") ∧
    (∀ d, macos.run d = RustOutcome.panic "run") ∧
    (∀ d, macos.detach d = RustOutcome.panic "detach") ∧
    (∀ d, macos.kill d = RustOutcome.panic "kill") ∧
    (∀ d, macos.pause d = RustOutcome.panic "pause") ∧
    (∀ d, macos.kontinue d = RustOutcome.panic "kontinue") ∧
    (∀ d addr len, macos.read_process_memory d addr len
      = RustOutcome.panic "read_process_memory") ∧
    (∀ d addr data, macos.write_process_memory d addr data
      = RustOutcome.panic "write_process_memory") ∧
    IsEmpty macos.Error :=
  ⟨fun _ _ _ => rfl, fun _ _ => rfl, fun _ => rfl, fun _ => rfl,
   fun _ => rfl, fun _ => rfl, fun _ => rfl, fun _ _ _ => rfl,
   fun _ _ _ => rfl, ⟨fun e => nomatch e⟩⟩

/-- C1 counterexample: calling a macOS backend operation at a concrete
input does not return a "not implemented" error value through the
interface — the call is a `todo!` panic and returns nothing at all. -/
theorem macos_op_returns_no_error_value :
    macos.spawn ⟨⟩ "/bin/cat" [] = RustOutcome.panic "spawn" ∧
    (macos.spawn ⟨⟩ "/bin/cat" []).isRet = false ∧
    macos.pause ⟨⟨⟩⟩ = RustOutcome.panic "pause" ∧
    (macos.pause ⟨⟨⟩⟩).isRet = false :=
  ⟨rfl, rfl, rfl, rfl⟩

/-- C1 amended: every operation of the lifecycle and control surfaces is
present on the macOS backend with the same interface, but each call
panics (a `todo!` stub) instead of returning an explicit
"not implemented" error value; no call ever returns normally. -/
theorem macos_uniform_interface_never_returns (q : MessageQueue)
    (p : String) (a : List String) (d : macos.Debugger) (pid : macos.Pid)
    (addr len : Nat) (data : List UInt8) :
    (macos.spawn q p a).isRet = false ∧
    (macos.attach q pid).isRet = false ∧
    (macos.run d).isRet = false ∧
    (macos.detach d).isRet = false ∧
    (macos.kill d).isRet = false ∧
    (macos.pause d).isRet = false ∧
    (macos.kontinue d).isRet = false ∧
    (macos.read_process_memory d addr len).isRet = false ∧
    (macos.write_process_memory d addr data).isRet = false ∧
    (macos.spawn q p a).isPanic = true ∧
    (macos.attach q pid).isPanic = true ∧
    (macos.run d).isPanic = true ∧
    (macos.detach d).isPanic = true ∧
    (macos.kill d).isPanic = true ∧
    (macos.pause d).isPanic = true ∧
    (macos.kontinue d).isPanic = true ∧
    (macos.read_process_memory d addr len).isPanic = true ∧
    (macos.write_process_memory d addr data).isPanic = true :=
  ⟨rfl, rfl, rfl, rfl, rfl, rfl, rfl, rfl, rfl,
   rfl, rfl, rfl, rfl, rfl, rfl, rfl, rfl, rfl⟩

/-- C9 counterexample: the macOS `Pid` is a fieldless unit struct, so it
is a subsingleton — it cannot carry the identity of an OS-native numeric
process id (any two `Pid` values, e.g. ones built for ids 1 and 2, are
equal). -/
theorem macos_pid_carries_no_identity : Subsingleton macos.Pid :=
  ⟨fun a b => by cases a; cases b; rfl⟩

/-- C9 amended: attach accepts a ProcessIdentifier; on the Linux backend
(modelled from the spec) the identifier is constructed from the OS-native
numeric id, recovers it exactly and distinct ids give distinct
identifiers, and a successful attach returns a handle naming that pid
while a failure wraps the native error in `Kernel`; the macOS stub
backend instead uses a fieldless placeholder `Pid` whose values are all
equal, carrying no numeric identity. -/
theorem pid_numeric_identity (a b : Int) (os : linux.AttachOS)
    (q : MessageQueue) (pid : linux.Pid) :
    (linux.Pid.fromRaw a).raw = a ∧
    (linux.Pid.fromRaw a = linux.Pid.fromRaw b → a = b) ∧
    ((∃ d, linux.attach os q pid = Except.ok d ∧ d.pid = pid) ∨
      (∃ e, linux.attach os q pid = Except.error (linux.Error.Kernel e))) ∧
    (∀ p1 p2 : macos.Pid, p1 = p2) := by
  refine ⟨rfl, fun h => ?_, ?_, fun p1 p2 => ?_⟩
  · exact congrArg linux.Pid.raw h
  · unfold linux.attach
    cases os.seize pid with
    | ok u => exact Or.inl ⟨_, rfl, rfl⟩
    | error e => exact Or.inr ⟨e, rfl⟩
  · cases p1; cases p2; rfl

/-- C9 witness: the amended theorem applied at the numeric id 3, an
always-succeeding attach oracle and the pid built from 9. -/
theorem pid_numeric_identity_witness :
    (3 : Int) = 3 ∧
    ((∃ d, linux.attach ⟨fun _ => Except.ok ()⟩ ⟨⟩ (linux.Pid.fromRaw 9)
        = Except.ok d ∧ d.pid = linux.Pid.fromRaw 9) ∨
      (∃ e, linux.attach ⟨fun _ => Except.ok ()⟩ ⟨⟩ (linux.Pid.fromRaw 9)
        = Except.error (linux.Error.Kernel e))) :=
  ⟨(Bite.pid_numeric_identity 3 3 ⟨fun _ => Except.ok ()⟩ ⟨⟩
      (linux.Pid.fromRaw 9)).2.1 rfl,
   (Bite.pid_numeric_identity 3 3 ⟨fun _ => Except.ok ()⟩ ⟨⟩
      (linux.Pid.fromRaw 9)).2.2.1⟩

end Bite

namespace Bite

/-- C2 counterexample: the rendering of `Kernel(e)` is not exactly the
native error description — the `format_args!("{err}.")` arm appends a
period, so for the native description "No such process (os error 3)" the
rendering differs from it. -/
theorem kernel_fmt_not_exact_description :
    (linux.Error.Kernel ⟨"No such process (os error 3)"⟩).fmt
      ≠ "No such process (os error 3)" := by decide

/-- C2 amended: the textual rendering maps each error kind to a single
fixed human-readable sentence (with the two numeric payloads
interpolated for the incomplete-transfer kinds), and the rendering of
`Kernel(e)` is the native error description followed by a terminating
period — from which the original description is still recoverable (the
rendering loses nothing: it is injective in the wrapped error). -/
theorem error_fmt_rendering (req res : Nat) (e : linux.KernelError) :
    linux.Error.InvalidPathName.fmt
      = "There appears to be a " ++ squote ++ bslash ++ "0" ++ squote
          ++ " in the path name." ∧
    (linux.Error.IncompleteRead req res).fmt
      = "Tried to read " ++ toString req ++ " bytes, only read "
          ++ toString res ++ "." ∧
    (linux.Error.IncompleteWrite req res).fmt
      = "Tried to write " ++ toString req ++ " bytes, only wrote "
          ++ toString res ++ "." ∧
    (linux.Error.Kernel e).fmt = e.descr ++ "." ∧
    (∀ e2 : linux.KernelError,
      (linux.Error.Kernel e).fmt = (linux.Error.Kernel e2).fmt → e = e2) := by
  refine ⟨rfl, rfl, rfl, rfl, fun e2 h => ?_⟩
  have hd : e.descr = e2.descr :=
    Bite.string_append_cancel_right e.descr e2.descr "." h
  cases e; cases e2
  simpa using hd

/-- C2 witness: the amended theorem applied to the wrapped native error
with description "permission denied". -/
theorem error_fmt_rendering_witness :
    (linux.Error.Kernel ⟨"permission denied"⟩).fmt
      = "permission denied" ++ "." ∧
    (⟨"permission denied"⟩ : linux.KernelError) = ⟨"permission denied"⟩ :=
  ⟨(Bite.error_fmt_rendering 0 0 ⟨"permission denied"⟩).2.2.2.1,
   (Bite.error_fmt_rendering 0 0 ⟨"permission denied"⟩).2.2.2.2
     ⟨"permission denied"⟩ rfl⟩

/-- C8 counterexample: at the concrete inputs "/bin/echo" and ["echo"],
the call list of the GUI debugging entry contains no queue-obtaining
step — its first action is already the spawn call, which passes only the
path and the argument list (no queue). -/
theorem start_debugging_obtains_no_queue :
    gui.GuiCall.obtainQueueCall
        ∉ (gui.start_debugging "/bin/echo" ["echo"]).calls ∧
    (gui.start_debugging "/bin/echo" ["echo"]).calls.head?
      = some (gui.GuiCall.spawnCall "/bin/echo" ["echo"]) := by decide

/-- C8 amended: the GUI debugging entry point spawns a fresh thread and
on it performs spawn(path, args) (without first obtaining a queue), then
trace_syscalls(true), then the blocking run-to-completion call, in that
order. -/
theorem start_debugging_call_sequence (path : String)
    (args : List String) :
    (gui.start_debugging path args).freshThread = true ∧
    (gui.start_debugging path args).calls
      = [gui.GuiCall.spawnCall path args,
         gui.GuiCall.traceSyscallsCall true,
         gui.GuiCall.runToEndCall] :=
  ⟨rfl, rfl⟩

/-- C4: for every supplied executable path containing an embedded
terminator byte 0, spawn fails with the `InvalidPathName` error kind and
never attempts process creation (the attempt flag stays false). -/
theorem spawn_embedded_nul_invalid_path (os : linux.SpawnOS)
    (q : MessageQueue) (path : List UInt8) (args : List String)
    (h : (0 : UInt8) ∈ path) :
    linux.spawn os q path args
      = (Except.error linux.Error.InvalidPathName, false) := by
  simp [linux.spawn, h]

/-- C4 witness: spawn applied to a path with an embedded terminator byte
(bytes 47, 0, 98) under an oracle that would otherwise succeed. -/
theorem spawn_embedded_nul_invalid_path_witness :
    linux.spawn ⟨fun _ _ => Except.ok 1⟩ ⟨⟩ [47, 0, 98] []
      = (Except.error linux.Error.InvalidPathName, false) :=
  Bite.spawn_embedded_nul_invalid_path ⟨fun _ _ => Except.ok 1⟩ ⟨⟩
    [47, 0, 98] [] (by decide)

/-- C6: spawn takes the event queue, an executable path and an ordered
argument list (besides the explicit OS oracle of the embedding), and is
fallible: every call returns either a ControlledProcess handle or an
error value; on success the returned handle carries the supplied queue
and starts Paused. -/
theorem spawn_inputs_and_fallibility (os : linux.SpawnOS)
    (q : MessageQueue) (path : List UInt8) (args : List String) :
    ((∃ d, (linux.spawn os q path args).1 = Except.ok d) ∨
      (∃ e, (linux.spawn os q path args).1 = Except.error e)) ∧
    (∀ d, (linux.spawn os q path args).1 = Except.ok d →
      d.queue = q ∧ d.state = linux.ExecutionState.Paused) := by
  unfold linux.spawn
  by_cases hp : (0 : UInt8) ∈ path
  · simp only [hp, if_true]
    exact ⟨Or.inr ⟨_, rfl⟩, fun d hd => by simp at hd⟩
  · simp only [hp, if_false]
    cases os.create path args with
    | ok pid =>
      refine ⟨Or.inl ⟨_, rfl⟩, fun d hd => ?_⟩
      injection hd with h
      subst h
      exact ⟨trivial, rfl⟩
    | error e =>
      exact ⟨Or.inr ⟨_, rfl⟩, fun d hd => by simp at hd⟩

/-- C6 witness: spawn applied to a queue, the one-byte path [97] and an
empty argument list under an oracle returning pid 7; the success handle
carries the queue and is Paused. -/
theorem spawn_inputs_and_fallibility_witness :
    (linux.Debugger.mk (linux.Pid.fromRaw 7) ⟨⟩ false
        linux.ExecutionState.Paused).queue = ⟨⟩ ∧
    (linux.Debugger.mk (linux.Pid.fromRaw 7) ⟨⟩ false
        linux.ExecutionState.Paused).state = linux.ExecutionState.Paused :=
  (Bite.spawn_inputs_and_fallibility ⟨fun _ _ => Except.ok 7⟩ ⟨⟩ [97] []).2
    (linux.Debugger.mk (linux.Pid.fromRaw 7) ⟨⟩ false
      linux.ExecutionState.Paused) rfl

end Bite

namespace Bite

/-- C3 (modelled from the spec, the Linux memory primitives being absent
from src/): every memory read or write either fully succeeds or reports
exactly how many bytes transferred — a read transferring fewer bytes
than requested yields `IncompleteRead(requested, actual)` and a write
yields `IncompleteWrite(requested, actual)`, with `actual < requested`
and both values reported; a partial transfer is never reported as
success (a successful read returns exactly the requested length, and
success occurs only when the full transfer count equals the request). -/
theorem memory_partial_transfer_surfaced (mem : linux.TargetMemory)
    (addr len : Nat) (data : List UInt8) :
    (linux.contiguous mem.mapped addr len < len →
      linux.read_process_memory mem addr len
        = Except.error
            (linux.Error.IncompleteRead len
              (linux.contiguous mem.mapped addr len))) ∧
    (∀ bs, linux.read_process_memory mem addr len = Except.ok bs →
      bs.length = len ∧ linux.contiguous mem.mapped addr len = len) ∧
    (∀ r a, linux.read_process_memory mem addr len
        = Except.error (linux.Error.IncompleteRead r a) →
      r = len ∧ a < r) ∧
    (linux.contiguous mem.mapped addr data.length < data.length →
      linux.write_process_memory mem addr data
        = Except.error
            (linux.Error.IncompleteWrite data.length
              (linux.contiguous mem.mapped addr data.length))) ∧
    (∀ mem2, linux.write_process_memory mem addr data = Except.ok mem2 →
      linux.contiguous mem.mapped addr data.length = data.length) ∧
    (∀ r a, linux.write_process_memory mem addr data
        = Except.error (linux.Error.IncompleteWrite r a) →
      r = data.length ∧ a < r) := by
  refine ⟨fun h => ?_, fun bs hbs => ?_, fun r a h => ?_, fun h => ?_,
    fun mem2 hm => ?_, fun r a h => ?_⟩
  · simp [linux.read_process_memory, if_pos h]
  · by_cases hlt : linux.contiguous mem.mapped addr len < len
    · simp [linux.read_process_memory, if_pos hlt] at hbs
    · simp [linux.read_process_memory, if_neg hlt] at hbs
      refine ⟨?_, Nat.le_antisymm (Bite.contiguous_le _ _ _)
        (Nat.le_of_not_lt hlt)⟩
      rw [← hbs]
      simp
  · by_cases hlt : linux.contiguous mem.mapped addr len < len
    · simp only [linux.read_process_memory, if_pos hlt, Except.error.injEq,
        linux.Error.IncompleteRead.injEq] at h
      omega
    · simp [linux.read_process_memory, if_neg hlt] at h
  · simp [linux.write_process_memory, if_pos h]
  · by_cases hlt :
        linux.contiguous mem.mapped addr data.length < data.length
    · simp [linux.write_process_memory, if_pos hlt] at hm
    · exact Nat.le_antisymm (Bite.contiguous_le _ _ _)
        (Nat.le_of_not_lt hlt)
  · by_cases hlt :
        linux.contiguous mem.mapped addr data.length < data.length
    · simp only [linux.write_process_memory, if_pos hlt,
        Except.error.injEq, linux.Error.IncompleteWrite.injEq] at h
      omega
    · simp [linux.write_process_memory, if_neg hlt] at h

/-- C3 witness: reading one byte at address 0 of a target with nothing
mapped transfers zero bytes and reports `IncompleteRead(1, 0)`, with
the actual count strictly below the request. -/
theorem memory_partial_transfer_surfaced_witness :
    linux.read_process_memory ⟨fun _ => false, fun _ => 0⟩ 0 1
      = Except.error (linux.Error.IncompleteRead 1 0) ∧
    (1 : Nat) = 1 ∧ (0 : Nat) < 1 :=
  ⟨rfl,
   (Bite.memory_partial_transfer_surfaced ⟨fun _ => false, fun _ => 0⟩
      0 1 []).2.2.1 1 0 rfl⟩

/-- C7 (modelled from the spec, the Linux run loop being absent from
src/): the decoded-event loop of `run` returns only when the controlled
process exits or is killed — over a stop stream with no terminal stop,
the loop does not return (there is no cooperative cancellation) — and
whenever it returns, the final event emitted before returning is the
exit-class terminal event. -/
theorem run_returns_only_on_terminal_stop (tracing : Bool)
    (stops : List linux.StopReason) :
    ((∀ s ∈ stops, s.isTerminal = false) →
      linux.runLoop tracing stops = none) ∧
    (∀ evs, linux.runLoop tracing stops = some evs →
      ∃ e, evs.getLast? = some e ∧ e.isFinal = true) := by
  induction stops with
  | nil =>
    exact ⟨fun _ => rfl, fun evs h => by simp [linux.runLoop] at h⟩
  | cons s rest ih =>
    constructor
    · intro h
      have hs : s.isTerminal = false := h s (List.mem_cons_self s rest)
      have hr : linux.runLoop tracing rest = none :=
        ih.1 fun x hx => h x (List.mem_cons_of_mem s hx)
      simp [linux.runLoop, hs, hr]
    · intro evs h
      by_cases hs : s.isTerminal = true
      · simp only [linux.runLoop, hs, if_true, Option.some.injEq] at h
        subst h
        cases s with
        | Exited code =>
          exact ⟨linux.TraceEvent.ProcessExited code, rfl, rfl⟩
        | Killed => exact ⟨linux.TraceEvent.ProcessKilled, rfl, rfl⟩
        | SyscallEntry => simp [linux.StopReason.isTerminal] at hs
        | SyscallExit => simp [linux.StopReason.isTerminal] at hs
        | SignalStop sig => simp [linux.StopReason.isTerminal] at hs
      · have hs' : s.isTerminal = false := by
          cases hb : s.isTerminal
          · rfl
          · exact absurd hb hs
        simp only [linux.runLoop, hs', Bool.false_eq_true, if_false] at h
        cases hrest : linux.runLoop tracing rest with
        | none => rw [hrest] at h; simp at h
        | some evs0 =>
          rw [hrest] at h
          simp only [Option.map_some', Option.some.injEq] at h
          obtain ⟨e, he, hf⟩ := ih.2 evs0 hrest
          refine ⟨e, ?_, hf⟩
          have hne : evs0 ≠ [] := by
            intro hnil
            rw [hnil] at he
            simp at he
          rw [← h, List.getLast?_append_of_ne_nil _ hne]
          exact he

/-- C7 witness: with tracing on, a stream with only a syscall-entry stop
leaves the loop still blocked, while the stream [signal 5, exit 0]
returns with the event list [SignalDelivered 5, ProcessExited 0], whose
last element is the final exit event. -/
theorem run_returns_only_on_terminal_stop_witness :
    linux.runLoop true [linux.StopReason.SyscallEntry] = none ∧
    (∃ e, [linux.TraceEvent.SignalDelivered 5,
        linux.TraceEvent.ProcessExited 0].getLast? = some e ∧
      e.isFinal = true) :=
  ⟨(Bite.run_returns_only_on_terminal_stop true
      [linux.StopReason.SyscallEntry]).1 (by decide),
   (Bite.run_returns_only_on_terminal_stop true
      [linux.StopReason.SignalStop 5, linux.StopReason.Exited 0]).2
     [linux.TraceEvent.SignalDelivered 5,
      linux.TraceEvent.ProcessExited 0] rfl⟩

end Bite
